import Mathlib

/-!
Verification of the magnus Ruby-binding value/conversion core.

The Rust source is embedded shallowly: Ruby's `VALUE` machine word becomes a
natural number (64-bit patterns), the Ruby heap becomes an association list
from addresses to object headers, and fallible Rust functions become
`Except`-valued Lean functions.  Functions of the Ruby C API that the crate
calls (`rb_ll2inum`, `rb_num2long`, ...) are modelled after their documented
Ruby semantics; each such model is marked in its doc comment.

Constants are those of the generated `ruby_sys` bindings for 64-bit
Ruby >= 3.0 (`USE_FLONUM` enabled).
-/

namespace Magnus

/-- Ruby special-constant bit pattern for `false` (`RUBY_Qfalse`). -/
def qfalseWord : Nat := 0x00

/-- Ruby special-constant bit pattern for `nil` (`RUBY_Qnil`). -/
def qnilWord : Nat := 0x04

/-- Ruby special-constant bit pattern for `true` (`RUBY_Qtrue`). -/
def qtrueWord : Nat := 0x14

/-- Ruby special-constant bit pattern for `undef` (`RUBY_Qundef`). -/
def qundefWord : Nat := 0x24

/-- Mask of the low bits that are nonzero on every non-`false`/`nil` immediate
(`RUBY_IMMEDIATE_MASK`). -/
def immediateMask : Nat := 0x07

/-- Tag bit of fixnum immediates (`RUBY_FIXNUM_FLAG`). -/
def fixnumFlag : Nat := 0x01

/-- Mask tested for flonum immediates (`RUBY_FLONUM_MASK`). -/
def flonumMask : Nat := 0x03

/-- Tag bits of flonum immediates (`RUBY_FLONUM_FLAG`). -/
def flonumFlag : Nat := 0x02

/-- Tag byte of static-symbol immediates (`RUBY_SYMBOL_FLAG`). -/
def symbolFlag : Nat := 0x0c

/-- Low-byte mask derived from `RUBY_SPECIAL_SHIFT` (8): the Rust code computes
`!(usize::MAX << RUBY_SPECIAL_SHIFT)`. -/
def specialShiftMask : Nat := 0xff

/-- The 64-bit complement of `RUBY_Qnil`, as computed by
`!(ruby_special_consts::RUBY_Qnil as VALUE)` in `Value::is_immediate`. -/
def notQnilMask : Nat := 0xFFFFFFFFFFFFFFFB

/-- Ruby heap type tags (`ruby_value_type`), kept as raw `u32` numerals since
the Rust code transmutes masked flag bits straight into the enum. -/
def tOBJECT : Nat := 0x01

def tFLOAT : Nat := 0x04

def tSTRING : Nat := 0x05

def tARRAY : Nat := 0x07

def tHASH : Nat := 0x08

def tBIGNUM : Nat := 0x0a

def tNIL : Nat := 0x11

def tTRUE : Nat := 0x12

def tFALSE : Nat := 0x13

def tSYMBOL : Nat := 0x14

def tFIXNUM : Nat := 0x15

def tUNDEF : Nat := 0x16

/-- Mask extracting the type tag from an object header's flags
(`RUBY_T_MASK`). -/
def tMASK : Nat := 0x1f

/-- Frozen bit in an object header's flags (`ruby_fl_type::RUBY_FL_FREEZE`). -/
def flFREEZE : Nat := 0x800

/-- User flag 1 (`ruby_fl_type::RUBY_FL_USER1`), used as the bignum sign bit. -/
def flUSER1 : Nat := 0x2000

/-- Ruby's `VALUE` handle: a single machine word (`struct Value(VALUE)`). -/
structure Value where
  word : Nat
deriving DecidableEq

/-- Model of a Ruby heap object header (`RBasic`: `flags` and `klass`), plus
the integer payload carried by `T_BIGNUM` objects.  The class pointer is
represented by the class name, which is all the embedded code observes
(through `rb_obj_classname`). -/
structure RBasicObj where
  flags : Nat
  klassName : String
  intVal : Int
deriving DecidableEq

/-- The Ruby heap: a finite map from word-aligned addresses to object
headers. -/
abbrev Heap := List (Nat × RBasicObj)

/-- Lookup of an address in the heap model. -/
def heapGet : Heap → Nat → Option RBasicObj
  | [], _ => none
  | (a, o) :: rest, w => if a = w then some o else heapGet rest w

/-- Embeds `Value::is_false`. -/
def Value.isFalse (v : Value) : Bool := v.word == qfalseWord

/-- Embeds `Value::is_nil`. -/
def Value.isNil (v : Value) : Bool := v.word == qnilWord

/-- Embeds `Value::is_true`. -/
def Value.isTrue (v : Value) : Bool := v.word == qtrueWord

/-- Embeds `Value::is_undef`. -/
def Value.isUndef (v : Value) : Bool := v.word == qundefWord

/-- Embeds `Value::is_fixnum`: `value & RUBY_FIXNUM_FLAG != 0`. -/
def Value.isFixnum (v : Value) : Bool := v.word &&& fixnumFlag != 0

/-- Embeds `Value::is_static_symbol`: the low byte (mask
`!(usize::MAX << RUBY_SPECIAL_SHIFT)`) equals `RUBY_SYMBOL_FLAG`. -/
def Value.isStaticSymbol (v : Value) : Bool := v.word &&& specialShiftMask == symbolFlag

/-- Embeds `Value::is_flonum`: `value & RUBY_FLONUM_MASK == RUBY_FLONUM_FLAG`. -/
def Value.isFlonum (v : Value) : Bool := v.word &&& flonumMask == flonumFlag

/-- Embeds `Value::is_immediate`: `value & RUBY_IMMEDIATE_MASK != 0` or the
special-const test `value & !RUBY_Qnil == 0`. -/
def Value.isImmediate (v : Value) : Bool :=
  (v.word &&& immediateMask != 0) || (v.word &&& notQnilMask == 0)

/-- Embeds `Value::r_basic`: `None` for immediates, otherwise the heap header
the word points at.  (The Rust code dereferences unconditionally for
non-immediates; a dangling address yields `none` here, standing for the
undefined behaviour the source comments acknowledge.) -/
def Value.rBasic (heap : Heap) (v : Value) : Option RBasicObj :=
  if v.isImmediate then none else heapGet heap v.word

/-- Embeds `Value::rb_type`: heap values read the type tag from the header
flags; immediates run the priority chain of bit-pattern predicates.  The
`unreachable!()` arm of the source is `none`. -/
def Value.rbType (heap : Heap) (v : Value) : Option Nat :=
  match v.rBasic heap with
  | some obj => some (obj.flags &&& tMASK)
  | none =>
    if v.isFalse then some tFALSE
    else if v.isNil then some tNIL
    else if v.isTrue then some tTRUE
    else if v.isUndef then some tUNDEF
    else if v.isFixnum then some tFIXNUM
    else if v.isStaticSymbol then some tSYMBOL
    else if v.isFlonum then some tFLOAT
    else none

/-- A bit pattern that is one of the seven immediate encodings, phrased with
the source's own predicates (false, nil, true, undef, fixnum, static symbol,
flonum). -/
def ImmediatePattern (v : Value) : Prop :=
  v.isFalse = true ∨ v.isNil = true ∨ v.isTrue = true ∨ v.isUndef = true ∨
    v.isFixnum = true ∨ v.isStaticSymbol = true ∨ v.isFlonum = true

instance (v : Value) : Decidable (ImmediatePattern v) := by
  unfold ImmediatePattern
  infer_instance

/-- Number of the seven immediate predicates that hold at `v`; the
classification chain is deterministic exactly when this is one. -/
def matchCount (v : Value) : Nat :=
  (if v.isFalse then 1 else 0) + (if v.isNil then 1 else 0) +
    (if v.isTrue then 1 else 0) + (if v.isUndef then 1 else 0) +
    (if v.isFixnum then 1 else 0) + (if v.isStaticSymbol then 1 else 0) +
    (if v.isFlonum then 1 else 0)

/-- Model of the crate's `Error` type.  `typeError`, `rangeError` and
`frozenError` stand for `Error::type_error` / `range_error` /
`frozen_error`; `exception` and `jump` are the `Error::Exception` and
`Error::Jump` variants of `eval`.  The `bug` variant is modelled from the
spec: `error.rs` is not under `src/`, and the spec mandates a distinct
internal-bug exception class for caught panics (`Error::from_panic`). -/
inductive RubyError where
  | typeError (msg : String)
  | rangeError (msg : String)
  | frozenError (msg : String)
  | bug (msg : String)
  | exception (ex : Value)
  | jump (tag : Nat)
deriving DecidableEq

/-- Models `rb_obj_classname` as used by the error paths: the name of the
class `Value::class` resolves (immediates via the same predicate chain, heap
values via the header's class). -/
def Value.classname (heap : Heap) (v : Value) : String :=
  match v.rBasic heap with
  | some obj => obj.klassName
  | none =>
    if v.isFalse then "FalseClass"
    else if v.isNil then "NilClass"
    else if v.isTrue then "TrueClass"
    else if v.isUndef then ""
    else if v.isFixnum then "Integer"
    else if v.isStaticSymbol then "Symbol"
    else if v.isFlonum then "Float"
    else ""

/-- Embeds `Value::is_frozen`: immediates (no `RBasic`) are frozen; heap
values read `RUBY_FL_FREEZE` from the header flags. -/
def Value.isFrozen (heap : Heap) (v : Value) : Bool :=
  match v.rBasic heap with
  | none => true
  | some obj => obj.flags &&& flFREEZE != 0

/-- Embeds `Value::check_frozen`: a `FrozenError` naming the class when
frozen, `Ok(())` otherwise. -/
def Value.checkFrozen (heap : Heap) (v : Value) : Except RubyError Unit :=
  if v.isFrozen heap then
    .error (.frozenError ("can\x27t modify frozen " ++ v.classname heap))
  else .ok ()

/-- Interpret a 64-bit word as a signed machine integer (two's complement),
as Rust's `transmute::<_, isize>` does. -/
def signed64 (w : Nat) : Int :=
  if w < 0x8000000000000000 then (w : Int) else (w : Int) - 0x10000000000000000

/-- Truncate an integer to its 64-bit two's-complement bit pattern (a C cast
to an unsigned 64-bit integer). -/
def toWord64 (i : Int) : Nat := (i % 0x10000000000000000).toNat

/-- Smallest fixnum on a 64-bit build (`RUBY_FIXNUM_MIN`, -2^62). -/
def fixnumMin : Int := -4611686018427387904

/-- Largest fixnum on a 64-bit build (`RUBY_FIXNUM_MAX`, 2^62 - 1). -/
def fixnumMax : Int := 4611686018427387903

/-- Fixnum bit pattern of `n` (`LONG2FIX`: `(n << 1) | 1`). -/
def fixnumWord (n : Int) : Nat := toWord64 (2 * n + 1)

/-- Decode a fixnum bit pattern (`FIX2LONG`): arithmetic right shift by one
of the signed word. -/
def fix2long (w : Nat) : Int := signed64 w / 2

/-- A `Value` known to be a fixnum (`struct Fixnum(NonZeroValue)`). -/
structure Fixnum where
  val : Value
deriving DecidableEq

/-- Embeds `Fixnum::from_value`: the `is_fixnum` bit test. -/
def fixnumFromValue (v : Value) : Option Fixnum :=
  if v.isFixnum then some ⟨v⟩ else none

/-- A `Value` known to point at a heap bignum (`struct RBignum(NonZeroValue)`). -/
structure RBignum where
  val : Value
deriving DecidableEq

/-- Header of a heap bignum holding `n`: type tag `T_BIGNUM`, sign in
`RUBY_FL_USER1`, payload `n`. -/
def bignumObjOf (n : Int) : RBasicObj :=
  { flags := tBIGNUM + (if 0 ≤ n then flUSER1 else 0), klassName := "Integer", intVal := n }

/-- A fresh word-aligned heap address unused by `heap`. -/
def freshAddr (heap : Heap) : Nat :=
  8 * (heap.foldr (fun p m => max p.1 m) 0 + 1)

/-- Models Ruby's `rb_ll2inum`: values in fixnum range get the immediate
encoding, anything else a freshly allocated heap bignum. -/
def rbLl2inum (n : Int) (heap : Heap) : Value × Heap :=
  if fixnumMin ≤ n ∧ n ≤ fixnumMax then (⟨fixnumWord n⟩, heap)
  else
    let addr := freshAddr heap
    (⟨addr⟩, (addr, bignumObjOf n) :: heap)

/-- Embeds `Fixnum::from_i64`: build through `rb_ll2inum`, then classify the
result with `Fixnum::from_value`; the `None` branch wraps the value as the
`RBignum` fallback. -/
def fixnumFromI64 (n : Int) (heap : Heap) : Except RBignum Fixnum × Heap :=
  let out := rbLl2inum n heap
  match fixnumFromValue out.1 with
  | some fx => (.ok fx, out.2)
  | none => (.error ⟨out.1⟩, out.2)

/-- Embeds `Fixnum::is_negative`: the word reinterpreted as `isize` is
negative. -/
def fixnumIsNegative (fx : Fixnum) : Bool := decide (signed64 fx.val.word < 0)

/-- Models `rb_num2ulong` on a fixnum: the C cast of `FIX2LONG` to
`unsigned long`, which wraps negatives and never raises. -/
def rbNum2ulongFix (w : Nat) : Nat := toWord64 (fix2long w)

/-- Embeds `Fixnum::to_i8`: widen through `rb_num2long` (exact on a fixnum),
then reject outside the `i8` range on either side. -/
def fixnumToI8 (fx : Fixnum) : Except RubyError Int :=
  let res := fix2long fx.val.word
  if res > 127 ∨ res < -128 then
    .error (.rangeError "fixnum too big to convert into `i8`")
  else .ok res

/-- Embeds `Fixnum::to_i32`: widen through `rb_num2long`, then reject outside
the `i32` range on either side. -/
def fixnumToI32 (fx : Fixnum) : Except RubyError Int :=
  let res := fix2long fx.val.word
  if res > 2147483647 ∨ res < -2147483648 then
    .error (.rangeError "fixnum too big to convert into `i32`")
  else .ok res

/-- Embeds `Fixnum::to_u8`: the negative check comes first, then
`rb_num2ulong`, then the `u8` upper bound. -/
def fixnumToU8 (fx : Fixnum) : Except RubyError Nat :=
  if fixnumIsNegative fx then
    .error (.rangeError "can\x27t convert negative integer to unsigned")
  else
    let res := rbNum2ulongFix fx.val.word
    if res > 255 then .error (.rangeError "fixnum too big to convert into `u8`")
    else .ok res

/-- Models `rb_num2long` on a bignum header: raises `RangeError` when the
payload exceeds the 64-bit `long` range, otherwise the payload. -/
def rbNum2longBig (obj : RBasicObj) : Except RubyError Int :=
  if obj.intVal < -9223372036854775808 ∨ obj.intVal > 9223372036854775807 then
    .error (.rangeError "bignum too big to convert into `long\x27")
  else .ok obj.intVal

/-- Models `rb_num2ull` on a bignum header: raises `RangeError` outside the
`unsigned long long` range. -/
def rbNum2ullBig (obj : RBasicObj) : Except RubyError Nat :=
  if obj.intVal < 0 ∨ obj.intVal > 18446744073709551615 then
    .error (.rangeError "bignum too big to convert into `unsigned long long\x27")
  else .ok obj.intVal.toNat

/-- C truncating cast `as i32`: two's-complement wrap to 32 bits. -/
def wrap32 (i : Int) : Int := (i + 2147483648) % 4294967296 - 2147483648

/-- Embeds `RBignum::sign`: `flags & RUBY_FL_USER1`; `is_negative` is its
negation of `is_positive`. -/
def rbignumIsNegative (obj : RBasicObj) : Bool := obj.flags &&& flUSER1 == 0

/-- Embeds `RBignum::to_i32` exactly as written in `src/r_bignum.rs`: widen
through `rb_num2long` under `protect`, then check only `res > i32::MAX`
before the truncating `as i32` cast.  (A dangling address is undefined
behaviour in the source; it is marked with a `bug` error here and never
reached by the theorems.) -/
def rbignumToI32 (heap : Heap) (bg : RBignum) : Except RubyError Int :=
  match heapGet heap bg.val.word with
  | none => .error (.bug "dangling pointer")
  | some obj =>
    match rbNum2longBig obj with
    | .error e => .error e
    | .ok res =>
      if res > 2147483647 then
        .error (.rangeError "bignum too big to convert into `i32`")
      else .ok (wrap32 res)

/-- Embeds `RBignum::to_u64`: the sign-flag negative check comes first, then
`rb_num2ull` under `protect`. -/
def rbignumToU64 (heap : Heap) (bg : RBignum) : Except RubyError Nat :=
  match heapGet heap bg.val.word with
  | none => .error (.bug "dangling pointer")
  | some obj =>
    if rbignumIsNegative obj then
      .error (.rangeError "can\x27t convert negative integer to unsigned")
    else rbNum2ullBig obj

/-- Embeds `impl TryConvert for Option<T>` from `src/try_convert.rs`: the
source computes `val.is_nil().then(|| T::try_convert(val)).transpose()`, so
the delegation happens when the nil test is true and `Ok(None)` is returned
when it is false. -/
def optionTryConvert {α : Type} (conv : Value → Except RubyError α) (val : Value) :
    Except RubyError (Option α) :=
  if val.isNil then
    match conv val with
    | .ok x => .ok (some x)
    | .error e => .error e
  else .ok none

/-- Modelled from the spec: the `TryConvert` implementation for the `Integer`
wrapper is referenced by `src/try_convert.rs` but absent from `src/` (only
`Integer::from_value` survives in `src/integer.rs`).  Per the spec's
conversion protocol, a fixnum or heap bignum converts directly and anything
else is a type error naming the source's class. -/
def integerTryConvert (heap : Heap) (val : Value) : Except RubyError Value :=
  if val.isFixnum then .ok val
  else if val.rbType heap = some tBIGNUM then .ok val
  else
    .error (.typeError ("no implicit conversion of " ++ val.classname heap ++ " into Integer"))

/-- Embeds `impl TryConvert for i64`: `Integer::try_convert(val)?.to_i64()`,
reading the fixnum payload or the bignum heap payload via `rb_num2ll`. -/
def i64TryConvert (heap : Heap) (val : Value) : Except RubyError Int :=
  match integerTryConvert heap val with
  | .error e => .error e
  | .ok v =>
    if v.isFixnum then .ok (fix2long v.word)
    else
      match heapGet heap v.word with
      | some obj => rbNum2longBig obj
      | none => .error (.bug "dangling pointer")

/-- Completion tag used by `rb_eval_string_protect` for a raise
(`ruby_tag_type::RUBY_TAG_RAISE`). -/
def tagRaise : Nat := 6

/-- Interpreter state visible to `eval`: the process-wide pending-exception
slot read by `rb_errinfo` and written by `rb_set_errinfo`. -/
structure VmState where
  errinfo : Value
deriving DecidableEq

/-- Embeds `magnus::eval` from `src/lib.rs`: on tag 0 convert the result; on
the raise tag read `rb_errinfo`, reset the slot to nil with
`rb_set_errinfo(QNIL)`, and return `Error::Exception`; other nonzero tags
become `Error::Jump` without touching the slot. -/
def evalModel {α : Type} (conv : Value → Except RubyError α) (state : Nat)
    (result : Value) (vm : VmState) : Except RubyError α × VmState :=
  if state = 0 then (conv result, vm)
  else if state = tagRaise then
    (.error (.exception vm.errinfo), { errinfo := ⟨qnilWord⟩ })
  else (.error (.jump state), vm)

/-- Result of running host code that may unwind: either a normal value or a
panic payload. -/
inductive PanicOr (α : Type) where
  | ok (a : α)
  | panicked (payload : String)
deriving DecidableEq

/-- What a trampoline hands back to the foreign runtime: a normal return, a
raised Ruby exception, or (never produced by the embedded code) an unwind
escaping into foreign frames. -/
inductive FfiOutcome where
  | returns (v : Value)
  | raises (e : RubyError)
  | unwinds (payload : String)
deriving DecidableEq

/-- Modelled from the spec: `Error::from_panic` (in `error.rs`, absent from
`src/`) converts a caught panic payload into the distinct internal-bug
exception class. -/
def fromPanic (payload : String) : RubyError := .bug payload

/-- The shared tail of every `call_handle_error` in `src/method.rs`:
`catch_unwind` maps a panic to `Err(Error::from_panic(..))`, then `Ok` is
returned as the value and `Err` is raised (`error::raise`) as a Ruby
exception. -/
def handleUnwind (r : PanicOr (Except RubyError Value)) : FfiOutcome :=
  match r with
  | .panicked p => .raises (fromPanic p)
  | .ok (.ok v) => .returns v
  | .ok (.error e) => .raises e

/-- Embeds `Method2::call_convert_value`: convert self, then argument `a`,
then argument `b`, each `?` short-circuiting, then run the user closure
(which alone may panic). -/
def method2CallConvertValue {S A B : Type} (convSelf : Value → Except RubyError S)
    (convA : Value → Except RubyError A) (convB : Value → Except RubyError B)
    (func : S → A → B → PanicOr (Except RubyError Value)) (rbSelf a b : Value) :
    PanicOr (Except RubyError Value) :=
  match convSelf rbSelf with
  | .error e => .ok (.error e)
  | .ok s =>
    match convA a with
    | .error e => .ok (.error e)
    | .ok x =>
      match convB b with
      | .error e => .ok (.error e)
      | .ok y => func s x y

/-- Embeds `Method2::call_handle_error`. -/
def method2CallHandleError {S A B : Type} (convSelf : Value → Except RubyError S)
    (convA : Value → Except RubyError A) (convB : Value → Except RubyError B)
    (func : S → A → B → PanicOr (Except RubyError Value)) (rbSelf a b : Value) :
    FfiOutcome :=
  handleUnwind (method2CallConvertValue convSelf convA convB func rbSelf a b)

/-- Embeds `Method3::call_convert_value`. -/
def method3CallConvertValue {S A B C : Type} (convSelf : Value → Except RubyError S)
    (convA : Value → Except RubyError A) (convB : Value → Except RubyError B)
    (convC : Value → Except RubyError C)
    (func : S → A → B → C → PanicOr (Except RubyError Value)) (rbSelf a b c : Value) :
    PanicOr (Except RubyError Value) :=
  match convSelf rbSelf with
  | .error e => .ok (.error e)
  | .ok s =>
    match convA a with
    | .error e => .ok (.error e)
    | .ok x =>
      match convB b with
      | .error e => .ok (.error e)
      | .ok y =>
        match convC c with
        | .error e => .ok (.error e)
        | .ok z => func s x y z

/-- Embeds `Method3::call_handle_error`. -/
def method3CallHandleError {S A B C : Type} (convSelf : Value → Except RubyError S)
    (convA : Value → Except RubyError A) (convB : Value → Except RubyError B)
    (convC : Value → Except RubyError C)
    (func : S → A → B → C → PanicOr (Except RubyError Value)) (rbSelf a b c : Value) :
    FfiOutcome :=
  handleUnwind (method3CallConvertValue convSelf convA convB convC func rbSelf a b c)

/-- Embeds `MethodRbAry::call_convert_value`: convert self, then the single
array argument. -/
def methodRbAryCallConvertValue {S A : Type} (convSelf : Value → Except RubyError S)
    (convArgs : Value → Except RubyError A)
    (func : S → A → PanicOr (Except RubyError Value)) (rbSelf args : Value) :
    PanicOr (Except RubyError Value) :=
  match convSelf rbSelf with
  | .error e => .ok (.error e)
  | .ok s =>
    match convArgs args with
    | .error e => .ok (.error e)
    | .ok x => func s x

/-- Embeds `MethodRbAry::call_handle_error`. -/
def methodRbAryCallHandleError {S A : Type} (convSelf : Value → Except RubyError S)
    (convArgs : Value → Except RubyError A)
    (func : S → A → PanicOr (Except RubyError Value)) (rbSelf args : Value) :
    FfiOutcome :=
  handleUnwind (methodRbAryCallConvertValue convSelf convArgs func rbSelf args)

/-- Left-to-right conversion of an argument list, short-circuiting at the
first failure: the shape shared by `MethodN::call_convert_value` for every
fixed arity 0 to 16. -/
def convertArgs {H : Type} (conv : Value → Except RubyError H) :
    List Value → Except RubyError (List H)
  | [] => .ok []
  | a :: rest =>
    match conv a with
    | .error e => .error e
    | .ok x =>
      match convertArgs conv rest with
      | .error e => .error e
      | .ok xs => .ok (x :: xs)

/-- The uniform fixed-arity `call_convert_value`, with the argument count
given by the length of `args`. -/
def methodNCallConvertValue {S H : Type} (convSelf : Value → Except RubyError S)
    (conv : Value → Except RubyError H)
    (func : S → List H → PanicOr (Except RubyError Value)) (rbSelf : Value)
    (args : List Value) : PanicOr (Except RubyError Value) :=
  match convSelf rbSelf with
  | .error e => .ok (.error e)
  | .ok s =>
    match convertArgs conv args with
    | .error e => .ok (.error e)
    | .ok xs => func s xs

/-- The uniform fixed-arity `call_handle_error`. -/
def methodNCallHandleError {S H : Type} (convSelf : Value → Except RubyError S)
    (conv : Value → Except RubyError H)
    (func : S → List H → PanicOr (Except RubyError Value)) (rbSelf : Value)
    (args : List Value) : FfiOutcome :=
  handleUnwind (methodNCallConvertValue convSelf conv func rbSelf args)

/-- A `Value` known to point at a heap hash (`struct RHash(NonZeroValue)`). -/
structure RHash where
  val : Value
deriving DecidableEq

/-- A `Value` known to point at a heap array (`struct RArray(NonZeroValue)`). -/
structure RArray where
  val : Value
deriving DecidableEq

/-- Embeds `RHash::from_value`: the heap type tag must be `RUBY_T_HASH`. -/
def rhashFromValue (heap : Heap) (v : Value) : Option RHash :=
  if v.rbType heap = some tHASH then some ⟨v⟩ else none

/-- Embeds `RArray::from_value`: the heap type tag must be `RUBY_T_ARRAY`. -/
def rarrayFromValue (heap : Heap) (v : Value) : Option RArray :=
  if v.rbType heap = some tARRAY then some ⟨v⟩ else none

/-- Embeds `impl TryConvert for RHash`: direct return on a matching tag,
otherwise `rb_check_hash_type` under `protect`, and a `TypeError` naming the
source's class when that also fails to produce a hash. -/
def rhashTryConvert (heap : Heap) (checkHashType : Value → Except RubyError Value)
    (val : Value) : Except RubyError RHash :=
  match rhashFromValue heap val with
  | some v => .ok v
  | none =>
    match checkHashType val with
    | .error e => .error e
    | .ok res =>
      match rhashFromValue heap res with
      | some v => .ok v
      | none =>
        .error (.typeError ("no implicit conversion of " ++ val.classname heap ++ " into Hash"))

/-- Embeds `impl TryConvert for RArray`: direct return on a matching tag,
otherwise `rb_ary_to_ary` under `protect`, whose result is wrapped
unchecked. -/
def rarrayTryConvert (heap : Heap) (aryToAry : Value → Except RubyError Value)
    (val : Value) : Except RubyError RArray :=
  match rarrayFromValue heap val with
  | some i => .ok i
  | none =>
    match aryToAry val with
    | .error e => .error e
    | .ok res => .ok ⟨res⟩

/-- Models Ruby's `rb_ary_to_ary` for a value that does not respond to
`to_ary`: an array converts to itself, anything else raises a `TypeError`
naming the value's class. -/
def rbAryToAryBasic (heap : Heap) (val : Value) : Except RubyError Value :=
  if val.rbType heap = some tARRAY then .ok val
  else
    .error (.typeError ("no implicit conversion of " ++ val.classname heap ++ " into Array"))

theorem and_absorb (w a b : Nat) (hab : a &&& b = b) : w &&& b = w &&& a &&& b := by
  rw [Nat.and_assoc, hab]

theorem fixnum_bit_of_seven (w : Nat) (h : w &&& 7 = 0) : w &&& 1 = 0 := by
  rw [and_absorb w 7 1 (by decide), h]; decide

theorem symbol_byte_seven (w : Nat) (h : w &&& 255 = 12) : w &&& 7 = 4 := by
  rw [and_absorb w 255 7 (by decide), h]; decide

theorem flonum_bits_of_seven (w : Nat) (h : w &&& 7 = 0) : w &&& 3 = 0 := by
  rw [and_absorb w 7 3 (by decide), h]; decide

theorem fixnum_bit_of_byte (w : Nat) (h : w &&& 255 = 12) : w &&& 1 = 0 := by
  rw [and_absorb w 255 1 (by decide), h]; decide

theorem fixnum_bit_of_flonum (w : Nat) (h : w &&& 3 = 2) : w &&& 1 = 0 := by
  rw [and_absorb w 3 1 (by decide), h]; decide

theorem flonum_bits_of_byte (w : Nat) (h : w &&& 255 = 12) : w &&& 3 = 0 := by
  rw [and_absorb w 255 3 (by decide), h]; decide

/-- An immediate pattern always passes the `is_immediate` bit test. -/
theorem immediatePattern_isImmediate (v : Value) (h : ImmediatePattern v) :
    v.isImmediate = true := by
  rcases h with h | h | h | h | h | h | h
  · have hw : v.word = 0 := by simpa [Value.isFalse, qfalseWord] using h
    simp only [Value.isImmediate, hw]
    decide
  · have hw : v.word = 4 := by simpa [Value.isNil, qnilWord] using h
    simp only [Value.isImmediate, hw]
    decide
  · have hw : v.word = 0x14 := by simpa [Value.isTrue, qtrueWord] using h
    simp only [Value.isImmediate, hw]
    decide
  · have hw : v.word = 0x24 := by simpa [Value.isUndef, qundefWord] using h
    simp only [Value.isImmediate, hw]
    decide
  · have hb : v.word &&& 1 ≠ 0 := by simpa [Value.isFixnum, fixnumFlag] using h
    have h7 : v.word &&& 7 ≠ 0 := fun hz => hb (fixnum_bit_of_seven _ hz)
    simp [Value.isImmediate, immediateMask, h7]
  · have hb : v.word &&& 255 = 12 := by simpa [Value.isStaticSymbol, specialShiftMask, symbolFlag] using h
    have h7 : v.word &&& 7 = 4 := symbol_byte_seven _ hb
    simp [Value.isImmediate, immediateMask, h7]
  · have hb : v.word &&& 3 = 2 := by simpa [Value.isFlonum, flonumMask, flonumFlag] using h
    have h7 : v.word &&& 7 ≠ 0 := by
      intro hz
      have := flonum_bits_of_seven _ hz
      omega
    simp [Value.isImmediate, immediateMask, h7]

/-- Exactly one of the seven immediate predicates holds at any immediate
pattern: the masked tag spaces are pairwise disjoint. -/
theorem immediatePattern_matchCount (v : Value) (h : ImmediatePattern v) :
    matchCount v = 1 := by
  rcases h with h | h | h | h | h | h | h
  · have hw : v.word = 0 := by simpa [Value.isFalse, qfalseWord] using h
    simp only [matchCount, Value.isFalse, Value.isNil, Value.isTrue, Value.isUndef,
      Value.isFixnum, Value.isStaticSymbol, Value.isFlonum, hw]
    decide
  · have hw : v.word = 4 := by simpa [Value.isNil, qnilWord] using h
    simp only [matchCount, Value.isFalse, Value.isNil, Value.isTrue, Value.isUndef,
      Value.isFixnum, Value.isStaticSymbol, Value.isFlonum, hw]
    decide
  · have hw : v.word = 0x14 := by simpa [Value.isTrue, qtrueWord] using h
    simp only [matchCount, Value.isFalse, Value.isNil, Value.isTrue, Value.isUndef,
      Value.isFixnum, Value.isStaticSymbol, Value.isFlonum, hw]
    decide
  · have hw : v.word = 0x24 := by simpa [Value.isUndef, qundefWord] using h
    simp only [matchCount, Value.isFalse, Value.isNil, Value.isTrue, Value.isUndef,
      Value.isFixnum, Value.isStaticSymbol, Value.isFlonum, hw]
    decide
  · have hb : v.word &&& 1 ≠ 0 := by simpa [Value.isFixnum, fixnumFlag] using h
    have hf : v.word ≠ 0 := fun hw => hb (by rw [hw]; decide)
    have hn : v.word ≠ 4 := fun hw => hb (by rw [hw]; decide)
    have ht : v.word ≠ 0x14 := fun hw => hb (by rw [hw]; decide)
    have hu : v.word ≠ 0x24 := fun hw => hb (by rw [hw]; decide)
    have hs : v.word &&& 255 ≠ 12 := fun hq => hb (fixnum_bit_of_byte _ hq)
    have hfl : v.word &&& 3 ≠ 2 := fun hq => hb (fixnum_bit_of_flonum _ hq)
    simp [matchCount, Value.isFalse, Value.isNil, Value.isTrue, Value.isUndef,
      Value.isFixnum, Value.isStaticSymbol, Value.isFlonum, qfalseWord, qnilWord,
      qtrueWord, qundefWord, fixnumFlag, specialShiftMask, symbolFlag, flonumMask,
      flonumFlag, hf, hn, ht, hu, hb, hs, hfl]
    have h2 : v.word % 2 ≠ 0 := by rw [← Nat.and_one_is_mod]; exact hb
    omega
  · have hb : v.word &&& 255 = 12 := by
      simpa [Value.isStaticSymbol, specialShiftMask, symbolFlag] using h
    have hf : v.word ≠ 0 := fun hw => by rw [hw] at hb; exact absurd hb (by decide)
    have hn : v.word ≠ 4 := fun hw => by rw [hw] at hb; exact absurd hb (by decide)
    have ht : v.word ≠ 0x14 := fun hw => by rw [hw] at hb; exact absurd hb (by decide)
    have hu : v.word ≠ 0x24 := fun hw => by rw [hw] at hb; exact absurd hb (by decide)
    have hx : v.word &&& 1 = 0 := fixnum_bit_of_byte _ hb
    have hfl : v.word &&& 3 ≠ 2 := by
      rw [flonum_bits_of_byte _ hb]; decide
    simp [matchCount, Value.isFalse, Value.isNil, Value.isTrue, Value.isUndef,
      Value.isFixnum, Value.isStaticSymbol, Value.isFlonum, qfalseWord, qnilWord,
      qtrueWord, qundefWord, fixnumFlag, specialShiftMask, symbolFlag, flonumMask,
      flonumFlag, hf, hn, ht, hu, hb, hx, hfl]
  · have hb : v.word &&& 3 = 2 := by simpa [Value.isFlonum, flonumMask, flonumFlag] using h
    have hf : v.word ≠ 0 := fun hw => by rw [hw] at hb; exact absurd hb (by decide)
    have hn : v.word ≠ 4 := fun hw => by rw [hw] at hb; exact absurd hb (by decide)
    have ht : v.word ≠ 0x14 := fun hw => by rw [hw] at hb; exact absurd hb (by decide)
    have hu : v.word ≠ 0x24 := fun hw => by rw [hw] at hb; exact absurd hb (by decide)
    have hx : v.word &&& 1 = 0 := fixnum_bit_of_flonum _ hb
    have hs : v.word &&& 255 ≠ 12 := fun hq => by
      rw [flonum_bits_of_byte _ hq] at hb; exact absurd hb (by decide)
    simp [matchCount, Value.isFalse, Value.isNil, Value.isTrue, Value.isUndef,
      Value.isFixnum, Value.isStaticSymbol, Value.isFlonum, qfalseWord, qnilWord,
      qtrueWord, qundefWord, fixnumFlag, specialShiftMask, symbolFlag, flonumMask,
      flonumFlag, hf, hn, ht, hu, hb, hx, hs]

/-- An immediate pattern never reaches the `unreachable!()` arm of the
classification chain. -/
theorem rbType_isSome_of_immediate (heap : Heap) (v : Value) (h : ImmediatePattern v) :
    (v.rbType heap).isSome = true := by
  have himm := immediatePattern_isImmediate v h
  have hrb : v.rBasic heap = none := by simp [Value.rBasic, himm]
  simp only [Value.rbType, hrb]
  split_ifs <;> simp_all [ImmediatePattern]

/-- C8: every tagged value whose bit pattern is one of the seven immediate
encodings passes `is_immediate`, matches exactly one of the priority-chain
predicates, and `rb_type` resolves it to a tag without reaching the
`unreachable!()` arm. -/
theorem c8_immediate_classification (heap : Heap) (v : Value) (h : ImmediatePattern v) :
    v.isImmediate = true ∧ matchCount v = 1 ∧ (v.rbType heap).isSome = true :=
  ⟨immediatePattern_isImmediate v h, immediatePattern_matchCount v h,
    rbType_isSome_of_immediate heap v h⟩

/-- Witness for C8 at the nil bit pattern. -/
theorem c8_immediate_classification_witness :
    ImmediatePattern ⟨4⟩ ∧
      ((⟨4⟩ : Value).isImmediate = true ∧ matchCount ⟨4⟩ = 1 ∧
        ((⟨4⟩ : Value).rbType []).isSome = true) :=
  ⟨by decide, c8_immediate_classification [] ⟨4⟩ (by decide)⟩

/-- C10: immediates are always frozen; `check_frozen` succeeds exactly on
unfrozen values and otherwise produces a `FrozenError` naming the value's
class, so it always errors on immediates. -/
theorem c10_frozen_invariant (heap : Heap) (v : Value) :
    (ImmediatePattern v → v.isFrozen heap = true) ∧
      (v.checkFrozen heap = .ok () ↔ v.isFrozen heap = false) ∧
      (v.isFrozen heap = true →
        v.checkFrozen heap =
          .error (.frozenError ("can\x27t modify frozen " ++ v.classname heap))) := by
  refine ⟨fun h => ?_, ?_, fun h => ?_⟩
  · simp [Value.isFrozen, Value.rBasic, immediatePattern_isImmediate v h]
  · cases hf : v.isFrozen heap <;> simp [Value.checkFrozen, hf]
  · simp [Value.checkFrozen, h]

/-- Witness for C10 at the nil immediate. -/
theorem c10_frozen_invariant_witness :
    (⟨4⟩ : Value).isFrozen [] = true ∧
      (⟨4⟩ : Value).checkFrozen [] =
        .error (.frozenError "can\x27t modify frozen NilClass") := by
  refine ⟨(c10_frozen_invariant [] ⟨4⟩).1 (by decide), ?_⟩
  exact (c10_frozen_invariant [] ⟨4⟩).2.2 ((c10_frozen_invariant [] ⟨4⟩).1 (by decide))

/-- Decoding the fixnum encoding is the identity on the fixnum range. -/
theorem fix2long_fixnumWord (n : Int) (h1 : fixnumMin ≤ n) (h2 : n ≤ fixnumMax) :
    fix2long (fixnumWord n) = n := by
  unfold fix2long fixnumWord signed64 toWord64 fixnumMin fixnumMax at *
  split_ifs with hlt
  all_goals omega

/-- The fixnum encoding always has the tag bit set. -/
theorem fixnumWord_odd (n : Int) : fixnumWord n &&& 1 = 1 := by
  rw [Nat.and_one_is_mod]
  unfold fixnumWord toWord64
  omega

/-- Fresh heap addresses never carry the fixnum tag bit. -/
theorem freshAddr_even (heap : Heap) : freshAddr heap &&& 1 = 0 := by
  rw [Nat.and_one_is_mod]
  unfold freshAddr
  omega

/-- C4: `Fixnum::from_i64` yields the immediate exactly on the 62-bit signed
range, decoding back to the same integer, and otherwise falls back to a heap
bignum holding the exact value — never truncating. -/
theorem c4_fixnum_from_i64 (n : Int) (heap : Heap) :
    ((∃ fx : Fixnum, (fixnumFromI64 n heap).1 = .ok fx ∧ fix2long fx.val.word = n) ↔
      fixnumMin ≤ n ∧ n ≤ fixnumMax) ∧
      (∀ bg : RBignum, (fixnumFromI64 n heap).1 = .error bg →
        heapGet (fixnumFromI64 n heap).2 bg.val.word = some (bignumObjOf n)) := by
  by_cases hr : fixnumMin ≤ n ∧ n ≤ fixnumMax
  · have hodd : (⟨fixnumWord n⟩ : Value).isFixnum = true := by
      simp [Value.isFixnum, fixnumFlag, fixnumWord_odd n]
    refine ⟨⟨fun _ => hr, fun _ => ?_⟩, fun bg hbg => ?_⟩
    · refine ⟨⟨⟨fixnumWord n⟩⟩, ?_, fix2long_fixnumWord n hr.1 hr.2⟩
      simp [fixnumFromI64, rbLl2inum, hr, fixnumFromValue, hodd]
    · exfalso
      simp [fixnumFromI64, rbLl2inum, hr, fixnumFromValue, hodd] at hbg
  · have heven : (⟨freshAddr heap⟩ : Value).isFixnum = false := by
      simp [Value.isFixnum, fixnumFlag, freshAddr_even heap]
    refine ⟨⟨fun hex => ?_, fun hcon => absurd hcon hr⟩, fun bg hbg => ?_⟩
    · exfalso
      obtain ⟨fx, hfx, _⟩ := hex
      simp [fixnumFromI64, rbLl2inum, hr, fixnumFromValue, heven] at hfx
    · simp only [fixnumFromI64, rbLl2inum, hr, if_false, fixnumFromValue, heven,
        Bool.false_eq_true, ite_false] at hbg ⊢
      have hbg2 : bg = ⟨⟨freshAddr heap⟩⟩ := by
        cases hbg0 : bg
        simp_all
      subst hbg2
      simp [heapGet]

/-- Witness for C4 at the boundary pair 2^62 - 1 and 2^62. -/
theorem c4_fixnum_from_i64_witness :
    (∃ fx : Fixnum, (fixnumFromI64 4611686018427387903 []).1 = .ok fx ∧
        fix2long fx.val.word = 4611686018427387903) ∧
      heapGet (fixnumFromI64 4611686018427387904 []).2 8 =
        some (bignumObjOf 4611686018427387904) :=
  ⟨(c4_fixnum_from_i64 4611686018427387903 []).1.mpr (by decide),
    (c4_fixnum_from_i64 4611686018427387904 []).2 ⟨⟨8⟩⟩ (by rfl)⟩

/-- C5 (code bug): `RBignum::to_i32` omits the lower-bound check, so the
bignum holding -4611686018427387905 silently truncates to `Ok(-1)` instead of
range-erroring; the sibling fixnum conversions reject out-of-range values on
both sides. -/
theorem c5_bignum_to_i32_truncates :
    rbignumToI32 [(8, bignumObjOf (-4611686018427387905))] ⟨⟨8⟩⟩ = .ok (-1) ∧
      fixnumToI32 ⟨⟨fixnumWord (-4611686018427387904)⟩⟩ =
        .error (.rangeError "fixnum too big to convert into `i32`") ∧
      fixnumToI8 ⟨⟨fixnumWord (-129)⟩⟩ =
        .error (.rangeError "fixnum too big to convert into `i8`") :=
  ⟨rfl, rfl, rfl⟩

/-- C6: unsigned conversions reject a negative source first with the
dedicated message, on both the fixnum and the bignum paths, so `-1` errors
instead of wrapping to 255. -/
theorem c6_unsigned_rejects_negative (n : Int) (heap : Heap) (bg : RBignum)
    (obj : RBasicObj) :
    (fixnumMin ≤ n → n < 0 →
      fixnumToU8 ⟨⟨fixnumWord n⟩⟩ =
        .error (.rangeError "can\x27t convert negative integer to unsigned")) ∧
      (fixnumToU8 ⟨⟨fixnumWord (-1)⟩⟩ =
        .error (.rangeError "can\x27t convert negative integer to unsigned")) ∧
      (heapGet heap bg.val.word = some obj → rbignumIsNegative obj = true →
        rbignumToU64 heap bg =
          .error (.rangeError "can\x27t convert negative integer to unsigned")) := by
  refine ⟨fun h1 h2 => ?_, by rfl, fun hg hneg => ?_⟩
  · have hneg : fixnumIsNegative ⟨⟨fixnumWord n⟩⟩ = true := by
      simp only [fixnumIsNegative, decide_eq_true_eq]
      unfold fixnumWord toWord64 signed64 fixnumMin at *
      split_ifs with hlt
      all_goals omega
    simp [fixnumToU8, hneg]
  · simp [rbignumToU64, hg, hneg]

/-- Witness for C6 at `-1` and at a negative bignum. -/
theorem c6_unsigned_rejects_negative_witness :
    fixnumToU8 ⟨⟨fixnumWord (-1)⟩⟩ =
        .error (.rangeError "can\x27t convert negative integer to unsigned") ∧
      rbignumToU64 [(8, bignumObjOf (-4611686018427387905))] ⟨⟨8⟩⟩ =
        .error (.rangeError "can\x27t convert negative integer to unsigned") :=
  ⟨(c6_unsigned_rejects_negative (-1) [] ⟨⟨8⟩⟩ (bignumObjOf 0)).2.1,
    (c6_unsigned_rejects_negative (-1) [(8, bignumObjOf (-4611686018427387905))] ⟨⟨8⟩⟩
        (bignumObjOf (-4611686018427387905))).2.2 rfl rfl⟩

/-- C1 (code bug): the `Option<T>` conversion has its nil test inverted: the
fixnum 42 converts to `Ok(None)` whatever the element conversion, and nil
delegates to the element conversion and errors, contradicting the crate's own
`Option<i64>` doc examples. -/
theorem c1_option_nil_test_inverted :
    optionTryConvert (i64TryConvert []) ⟨fixnumWord 42⟩ = .ok none ∧
      optionTryConvert (i64TryConvert []) ⟨qnilWord⟩ =
        .error (.typeError "no implicit conversion of NilClass into Integer") ∧
      ∀ (α : Type) (conv : Value → Except RubyError α),
        optionTryConvert conv ⟨fixnumWord 42⟩ = .ok none :=
  ⟨rfl, rfl, fun _ _ => rfl⟩

/-- C3: when a protected evaluation reports the raise tag, `eval` returns the
pending exception read from the error-info slot and resets that slot to nil. -/
theorem c3_eval_clears_errinfo {α : Type} (conv : Value → Except RubyError α)
    (result : Value) (vm : VmState) (state : Nat) (h : state = tagRaise) :
    (evalModel conv state result vm).1 = .error (.exception vm.errinfo) ∧
      (evalModel conv state result vm).2.errinfo = ⟨qnilWord⟩ := by
  subst h
  simp [evalModel, tagRaise]

/-- Witness for C3 at raise tag 6. -/
theorem c3_eval_clears_errinfo_witness :
    (evalModel (fun v : Value => Except.ok v) 6 ⟨4⟩ ⟨⟨16⟩⟩).1 =
        .error (.exception ⟨16⟩) ∧
      (evalModel (fun v : Value => Except.ok v) 6 ⟨4⟩ ⟨⟨16⟩⟩).2.errinfo = ⟨qnilWord⟩ :=
  c3_eval_clears_errinfo (fun v => Except.ok v) ⟨4⟩ ⟨⟨16⟩⟩ 6 rfl

/-- The unwind-to-result adapter never lets an unwind escape. -/
theorem handleUnwind_never_unwinds (r : PanicOr (Except RubyError Value)) (q : String) :
    handleUnwind r ≠ .unwinds q := by
  cases r with
  | panicked p => simp [handleUnwind, fromPanic]
  | ok v => cases v <;> simp [handleUnwind]

/-- C2: every trampoline converts a user-closure panic into the internal-bug
error and raises it as a Ruby exception; no trampoline outcome unwinds into
foreign frames.  Stated for the cited `Method2` and `MethodRbAry` shapes and
for the uniform shape of every fixed arity. -/
theorem c2_panic_firewall {S A B H : Type} (convSelf : Value → Except RubyError S)
    (convA : Value → Except RubyError A) (convB : Value → Except RubyError B)
    (convH : Value → Except RubyError H)
    (func2 : S → A → B → PanicOr (Except RubyError Value))
    (funcN : S → List H → PanicOr (Except RubyError Value))
    (funcAry : S → A → PanicOr (Except RubyError Value))
    (rbSelf a b arys : Value) (args : List Value) (s : S) (x : A) (y : B)
    (xs : List H) (p : String) :
    (∀ q, method2CallHandleError convSelf convA convB func2 rbSelf a b ≠ .unwinds q) ∧
      (convSelf rbSelf = .ok s → convA a = .ok x → convB b = .ok y →
        func2 s x y = .panicked p →
        method2CallHandleError convSelf convA convB func2 rbSelf a b =
          .raises (fromPanic p)) ∧
      (∀ q, methodNCallHandleError convSelf convH funcN rbSelf args ≠ .unwinds q) ∧
      (convSelf rbSelf = .ok s → convertArgs convH args = .ok xs →
        funcN s xs = .panicked p →
        methodNCallHandleError convSelf convH funcN rbSelf args =
          .raises (fromPanic p)) ∧
      (∀ q, methodRbAryCallHandleError convSelf convA funcAry rbSelf arys ≠ .unwinds q) ∧
      (convSelf rbSelf = .ok s → convA arys = .ok x → funcAry s x = .panicked p →
        methodRbAryCallHandleError convSelf convA funcAry rbSelf arys =
          .raises (fromPanic p)) := by
  refine ⟨fun q => handleUnwind_never_unwinds _ q, fun h1 h2 h3 h4 => ?_,
    fun q => handleUnwind_never_unwinds _ q, fun h1 h2 h3 => ?_,
    fun q => handleUnwind_never_unwinds _ q, fun h1 h2 h3 => ?_⟩
  · simp [method2CallHandleError, method2CallConvertValue, h1, h2, h3, h4, handleUnwind]
  · simp [methodNCallHandleError, methodNCallConvertValue, h1, h2, h3, handleUnwind]
  · simp [methodRbAryCallHandleError, methodRbAryCallConvertValue, h1, h2, h3, handleUnwind]

/-- Witness for C2: a panicking closure behind `Method2` and `MethodRbAry`
surfaces as a raised internal-bug error. -/
theorem c2_panic_firewall_witness :
    method2CallHandleError (fun _ => Except.ok ()) (fun _ => Except.ok ())
        (fun _ => Except.ok ()) (fun _ _ _ => PanicOr.panicked "boom") ⟨4⟩ ⟨4⟩ ⟨4⟩ =
      .raises (fromPanic "boom") ∧
    methodRbAryCallHandleError (fun _ => Except.ok ()) (fun _ => Except.ok ())
        (fun _ _ => PanicOr.panicked "boom") ⟨4⟩ ⟨4⟩ = .raises (fromPanic "boom") :=
  ⟨(c2_panic_firewall (fun _ => Except.ok ()) (fun _ => Except.ok ())
      (fun _ => Except.ok ()) (fun _ => Except.ok (()))
      (fun _ _ _ => PanicOr.panicked "boom") (fun _ _ => PanicOr.panicked "boom")
      (fun _ _ => PanicOr.panicked "boom") ⟨4⟩ ⟨4⟩ ⟨4⟩ ⟨4⟩ [] () () () [] "boom").2.1
      rfl rfl rfl rfl,
    (c2_panic_firewall (fun _ => Except.ok ()) (fun _ => Except.ok ())
      (fun _ => Except.ok ()) (fun _ => Except.ok (()))
      (fun _ _ _ => PanicOr.panicked "boom") (fun _ _ => PanicOr.panicked "boom")
      (fun _ _ => PanicOr.panicked "boom") ⟨4⟩ ⟨4⟩ ⟨4⟩ ⟨4⟩ [] () () () [] "boom").2.2.2.2.2
      rfl rfl rfl⟩

/-- C7: fixed-arity adapters convert self first and arguments left to right,
short-circuiting on the first failure: with argument 1 failing, the result is
argument 1's error whatever the later converters and the closure do, so
neither is consulted. -/
theorem c7_fail_fast_left_to_right {S A B C : Type}
    (convSelf : Value → Except RubyError S) (convA : Value → Except RubyError A)
    (rbSelf a b c : Value) (args : List Value) (s : S) (e : RubyError)
    (hs : convSelf rbSelf = .ok s) (ha : convA a = .error e) :
    (∀ (convB : Value → Except RubyError B)
        (func : S → A → B → PanicOr (Except RubyError Value)),
      method2CallConvertValue convSelf convA convB func rbSelf a b = .ok (.error e) ∧
        method2CallHandleError convSelf convA convB func rbSelf a b = .raises e) ∧
      (∀ (convB : Value → Except RubyError B) (convC : Value → Except RubyError C)
          (func : S → A → B → C → PanicOr (Except RubyError Value)),
        method3CallConvertValue convSelf convA convB convC func rbSelf a b c =
            .ok (.error e) ∧
          method3CallHandleError convSelf convA convB convC func rbSelf a b c =
            .raises e) ∧
      (∀ func : S → List A → PanicOr (Except RubyError Value),
        methodNCallHandleError convSelf convA func rbSelf (a :: args) = .raises e) := by
  refine ⟨fun convB func => ⟨?_, ?_⟩, fun convB convC func => ⟨?_, ?_⟩, fun func => ?_⟩
  · simp [method2CallConvertValue, hs, ha]
  · simp [method2CallHandleError, method2CallConvertValue, hs, ha, handleUnwind]
  · simp [method3CallConvertValue, hs, ha]
  · simp [method3CallHandleError, method3CallConvertValue, hs, ha, handleUnwind]
  · simp [methodNCallHandleError, methodNCallConvertValue, convertArgs, hs, ha,
      handleUnwind]

/-- Witness for C7: with argument 1 failing behind a 2-argument adapter the
raised error names argument 1's failure. -/
theorem c7_fail_fast_witness :
    method2CallConvertValue (fun _ => Except.ok ())
        (fun _ => (Except.error (RubyError.typeError "no implicit conversion into Integer") :
          Except RubyError Unit))
        (fun _ => Except.ok ()) (fun _ _ _ => PanicOr.ok (Except.ok ⟨4⟩)) ⟨4⟩ ⟨4⟩ ⟨4⟩ =
      .ok (.error (RubyError.typeError "no implicit conversion into Integer")) ∧
    method2CallHandleError (fun _ => Except.ok ())
        (fun _ => (Except.error (RubyError.typeError "no implicit conversion into Integer") :
          Except RubyError Unit))
        (fun _ => Except.ok ()) (fun _ _ _ => PanicOr.ok (Except.ok ⟨4⟩)) ⟨4⟩ ⟨4⟩ ⟨4⟩ =
      .raises (RubyError.typeError "no implicit conversion into Integer") :=
  (c7_fail_fast_left_to_right (C := Unit) (fun _ => Except.ok ())
      (fun _ => (Except.error (RubyError.typeError "no implicit conversion into Integer") :
        Except RubyError Unit))
      ⟨4⟩ ⟨4⟩ ⟨4⟩ ⟨4⟩ [] () (RubyError.typeError "no implicit conversion into Integer")
      rfl rfl).1 (fun _ => Except.ok ()) (fun _ _ _ => PanicOr.ok (Except.ok ⟨4⟩))

/-- C9: container conversions return the value directly on a matching heap
tag; otherwise the implicit-conversion protocol runs under `protect`, and a
failure yields a `TypeError` naming the source value's class. -/
theorem c9_container_try_convert (heap : Heap) (val res : Value)
    (checkHashType : Value → Except RubyError Value) :
    (val.rbType heap = some tHASH → rhashTryConvert heap checkHashType val = .ok ⟨val⟩) ∧
      (val.rbType heap ≠ some tHASH → checkHashType val = .ok res →
        res.rbType heap ≠ some tHASH →
        rhashTryConvert heap checkHashType val =
          .error (.typeError
            ("no implicit conversion of " ++ val.classname heap ++ " into Hash"))) ∧
      (∀ aryToAry : Value → Except RubyError Value,
        val.rbType heap = some tARRAY → rarrayTryConvert heap aryToAry val = .ok ⟨val⟩) ∧
      (val.rbType heap ≠ some tARRAY →
        rarrayTryConvert heap (rbAryToAryBasic heap) val =
          .error (.typeError
            ("no implicit conversion of " ++ val.classname heap ++ " into Array"))) := by
  refine ⟨fun h => ?_, fun h hc hr => ?_, fun f h => ?_, fun h => ?_⟩
  · simp [rhashTryConvert, rhashFromValue, h]
  · simp [rhashTryConvert, rhashFromValue, h, hc, hr]
  · simp [rarrayTryConvert, rarrayFromValue, h]
  · simp [rarrayTryConvert, rarrayFromValue, rbAryToAryBasic, h]

/-- Witness for C9: a heap hash converts directly; a fixnum fails the array
conversion with a class-naming type error. -/
theorem c9_container_try_convert_witness :
    rhashTryConvert [(8, ⟨tHASH, "Hash", 0⟩)] (fun v => Except.ok v) ⟨8⟩ = .ok ⟨⟨8⟩⟩ ∧
      rarrayTryConvert [] (rbAryToAryBasic []) ⟨fixnumWord 1⟩ =
        .error (.typeError "no implicit conversion of Integer into Array") :=
  ⟨(c9_container_try_convert [(8, ⟨tHASH, "Hash", 0⟩)] ⟨8⟩ ⟨8⟩
      (fun v => Except.ok v)).1 rfl,
    (c9_container_try_convert [] ⟨fixnumWord 1⟩ ⟨4⟩ (fun v => Except.ok v)).2.2.2
      (by decide)⟩

end Magnus
